import Mathlib

/-!
Verification of the Zeno web-archival crawler against its natural-language
specification.  Each Go function named by a claim is shallowly embedded as an
executable Lean definition; machine integers are modelled as `Nat`/`Int` with
Go's semantics made explicit, fallible operations return `Except`/`Option`,
and external collaborators that are not part of the repository (HTTP client,
URL validator, extractors, serialization libraries) appear as explicit
function parameters or as definitions modelled from the spec.
-/

set_option autoImplicit false

namespace Zeno

/-- The item status set of the data model (`models.Item` / `item.Item`):
Fresh, PreProcessed, Captured, Archived, GotRedirected, GotChildren,
PostProcessed, Completed, Failed. -/
inductive Status where
  | fresh
  | preProcessed
  | captured
  | archived
  | gotRedirected
  | gotChildren
  | postProcessed
  | completed
  | failed
  deriving DecidableEq, Repr

/-! ## Queue index and WAL (internal/pkg/queue/index, internal/pkg/queue/metadata.go) -/

namespace Index

/-- One `(blobID, position, size)` entry of the host index. -/
structure Blob where
  id : String
  position : Nat
  size : Nat
  deriving DecidableEq, Repr

/-- The `Operation` type of the WAL (queue/metadata.go): `OpAdd` or `OpPop`. -/
inductive Operation where
  | opAdd
  | opPop
  deriving DecidableEq, Repr

/-- The `WALEntry` record of queue/metadata.go. -/
structure WALEntry where
  op : Operation
  host : String
  blobID : String
  position : Nat
  size : Nat
  deriving DecidableEq, Repr

/-- Modelled from the spec: the in-memory host index type (`Index`, whose
definition is not under src/ — only its callers are) maps each host to the
ordered list of its blob entries and keeps a global ordered list of hosts. -/
structure HostIndex where
  index : List (String × List Blob)
  hostOrder : List String
  deriving DecidableEq, Repr

/-- Modelled from the spec: `Index.add` (not under src/) appends the blob to
the host's entry list and appends the host to the host order if it is new:
"update in-memory index (append blob to host's list, append host to
host-order if new)". -/
def HostIndex.add (hi : HostIndex) (host id : String) (position size : Nat) : HostIndex :=
  let b : Blob := ⟨id, position, size⟩
  match hi.index.lookup host with
  | some _ =>
      { hi with index := hi.index.map (fun e => if e.1 = host then (e.1, e.2 ++ [b]) else e) }
  | none =>
      { index := hi.index ++ [(host, [b])], hostOrder := hi.hostOrder ++ [host] }

/-- The mutable state of an `IndexManager` relevant to `Add`: the WAL file
contents (as the list of entries appended so far), the in-memory host index
and the two operation counters. -/
structure ManagerState where
  wal : List WALEntry
  hostIndex : HostIndex
  opsSinceDump : Nat
  totalOps : Nat
  deriving DecidableEq, Repr

/-- Embedding of `IndexManager.Add` (queue/metadata.go).  The WAL file append
performed under the lock is an external write; whether it succeeds is the
parameter `walOk` (false models a failed append, e.g. disk full).  The result
pairs the state after the call with the returned error, if any: on a failed
WAL append the method returns the error before touching the in-memory index,
so the state is returned unchanged. -/
def managerAdd (walOk : Bool) (s : ManagerState) (host id : String) (position size : Nat) :
    ManagerState × Option String :=
  if !walOk then
    (s, some "failed to write to WAL")
  else
    ({ wal := s.wal ++ [⟨Operation.opAdd, host, id, position, size⟩]
     , hostIndex := s.hostIndex.add host id position size
     , opsSinceDump := s.opsSinceDump + 1
     , totalOps := s.totalOps + 1 }, none)

/-- The pieces of on-disk state touched by `IndexManager.performDump`
(queue/index/file_io.go): whether the index file and its `.old` backup exist
and which index generation each holds, and the length of the WAL file.  File
contents are abstracted as `Nat` generation markers. -/
structure SnapshotFS where
  indexExists : Bool
  indexContents : Nat
  oldExists : Bool
  oldContents : Nat
  walLen : Nat
  deriving DecidableEq, Repr

/-- Embedding of `IndexManager.performDump` (queue/index/file_io.go), acting
on the snapshot-relevant file state.  `memIndex` is the current in-memory
host index (the value `dumpIndexToFile` encodes).  Step by step, following
the source: create a temp file and dump the index into it with a sync
(`os.CreateTemp` and `dumpIndexToFile`, which do not fail in this model);
`os.Remove` the prior `.old` file, which returns an error when that file
does not exist; `os.Rename` the current index file to `.old`, which returns
an error when the index file does not exist; `os.Rename` the temp file to
the index file (the temp file exists, so this succeeds and the source's
rollback path is not taken); finally truncate the WAL to length zero. -/
def performDump (memIndex : Nat) (fs : SnapshotFS) : Except String SnapshotFS :=
  let tempContents := memIndex
  if !fs.oldExists then
    Except.error "failed to remove old index file"
  else
    let fs1 := { fs with oldExists := false }
    if !fs1.indexExists then
      Except.error "failed to backup index file"
    else
      let fs2 := { fs1 with
        indexExists := false, oldExists := true, oldContents := fs1.indexContents }
      let fs3 := { fs2 with indexExists := true, indexContents := tempContents }
      Except.ok { fs3 with walLen := 0 }

end Index

/-! ## HQ consumer loop (internal/pkg/crawl/api.go, HQConsumer) -/

namespace HQ

/-- One observable action of an `HQConsumer` loop iteration: either sleep
100 milliseconds without fetching, or fetch a batch of the given size. -/
inductive ConsumerAction where
  | sleep100
  | fetch (size : Nat)
  deriving DecidableEq, Repr

/-- Embedding of `int(math.Ceil(float64(c.Workers) / 2))` for a non-negative
worker count: the ceiling of `workers / 2`. -/
def ceilHalf (workers : Nat) : Nat :=
  (workers + 1) / 2

/-- Embedding of one iteration of `Crawl.HQConsumer` (crawl/api.go), in the
case where the crawl is neither finished nor paused.  `HQBatchSize` is first
set to `ceil(Workers/2)`; if continuous pull is disabled and
`ActiveWorkers >= Workers - Workers/10` the iteration sleeps 100ms and does
not fetch; otherwise it fetches a batch whose size is the configured
`HQBatchSize` when non-zero, and the default `ceil(Workers/2)` otherwise. -/
def hqConsumerIteration (continuousPull : Bool) (activeWorkers workers cfgBatchSize : Nat) :
    ConsumerAction :=
  let defaultBatch := ceilHalf workers
  if !continuousPull && decide (activeWorkers ≥ workers - workers / 10) then
    ConsumerAction.sleep100
  else
    ConsumerAction.fetch (if cfgBatchSize ≠ 0 then cfgBatchSize else defaultBatch)

end HQ

/-! ## Crawl configuration (internal/crawl/config.go, GenerateCrawlConfig) -/

namespace Config

/-- The two wall-clock limit fields of the CLI configuration consumed by
`GenerateCrawlConfig`.  Both are Go `int`s, modelled as `Int`. -/
structure TimeLimits where
  crawlTimeLimit : Int
  crawlMaxTimeLimit : Int
  deriving DecidableEq, Repr

/-- Embedding of the time-limit fragment of `GenerateCrawlConfig`
(internal/crawl/config.go): `c.CrawlTimeLimit` is copied from the config, and
`c.MaxCrawlTimeLimit` defaults to 10% more than `CrawlTimeLimit` when
`CrawlMaxTimeLimit` is zero and `CrawlTimeLimit` is not.  Go's `/` on `int`
truncates toward zero, which is `Int.tdiv`. -/
def generateCrawlTimeLimits (cfg : TimeLimits) : Int × Int :=
  ( cfg.crawlTimeLimit
  , if cfg.crawlMaxTimeLimit = 0 ∧ cfg.crawlTimeLimit ≠ 0 then
      cfg.crawlTimeLimit + Int.tdiv cfg.crawlTimeLimit 10
    else
      cfg.crawlMaxTimeLimit )

end Config

/-! ## Preprocessor (internal/pkg/preprocessor/preprocessor.go) -/

namespace Preprocessor

/-- A child URL record as the preprocessor sees it (`item.Childs[i]`): only
the `Value` field is read or written by `preprocess`. -/
structure ChildURL where
  value : String
  deriving DecidableEq, Repr

/-- The item's own URL record (`item.URL`): `Value` is read and written by
`preprocess`, and the record itself is passed as the parent when validating
children. -/
structure SeedURL where
  value : String
  deriving DecidableEq, Repr

/-- The fields of `models.Item` read by the preprocessor. -/
structure PreItem where
  url : SeedURL
  status : Status
  childs : List ChildURL
  deriving DecidableEq, Repr

/-- Embedding of the child-validation loop of `preprocessor.preprocess`
(the index-based loop that removes the current child on a validation error
and advances otherwise): each child's value is replaced by its validated
form and children whose validation fails are removed in place.  `validate`
abstracts `validateURL` applied to the parent URL; `none` models a non-nil
error. -/
def preprocessChilds (validate : String → Option String) : List ChildURL → List ChildURL
  | [] => []
  | c :: rest =>
    match validate c.value with
    | some v => { c with value := v } :: preprocessChilds validate rest
    | none => preprocessChilds validate rest

/-- Embedding of `preprocessor.preprocess`.  `validate raw parent` abstracts
`validateURL(raw, parent)`, which is not under src/; `parent = none` is Go's
nil parent and `none` as a result models a non-nil error.  The value
returned is the item sent on the preprocessor's output channel, or `none`
when the function returns early without sending (the item is dropped). -/
def preprocess (validate : String → Option SeedURL → Option String) (item : PreItem) :
    Option PreItem :=
  if item.status = Status.fresh then
    match validate item.url.value none with
    | none => none
    | some v => some { item with url := { item.url with value := v } }
  else if item.childs ≠ [] then
    some { item with childs := preprocessChilds (fun s => validate s (some item.url)) item.childs }
  else
    some item

/-- Modelled from the spec: the reactor's state table maps item identifiers
to items, and the finisher calls `MarkAsFinished(item)`, which "removes it
from the state table and releases the token" (the reactor and finisher
sources are not under src/). -/
def markAsFinished (table : List (String × PreItem)) (id : String) : List (String × PreItem) :=
  table.filter (fun e => e.1 ≠ id)

end Preprocessor

/-! ## Archiver (internal/pkg/archiver/archiver.go) -/

namespace Archiver

/-- A URL record as the archiver's capture loop sees it; the fields the loop
writes (response, body) are not needed to settle the status claim, so only
the identity of the URL is kept. -/
structure AURL where
  raw : String
  deriving DecidableEq, Repr

/-- The fields of `models.Item` read by `archiver.archive`. -/
structure AItem where
  url : AURL
  status : Status
  redirection : Option AURL
  childs : List AURL
  deriving DecidableEq, Repr

/-- Embedding of the URL selection at the top of `archiver.archive`: capture
the redirection target when present, else the child assets when there are
any, else the item's own URL. -/
def urlsToCapture (item : AItem) : List AURL :=
  match item.redirection with
  | some r => [r]
  | none => if item.childs ≠ [] then item.childs else [item.url]

/-- Embedding of the capture loop of `archiver.archive`.  `requestFails URL`
abstracts whether the WARC-writing HTTP client's `Do` returns an error for
that URL.  `itemState` starts as `captured`; a failing request sets it to
`failed` only when the item's status is `fresh` or the item carries a
redirection; the fold result is the status stored by the final
`item.SetStatus(itemState)`. -/
def archive (requestFails : AURL → Bool) (item : AItem) : Status :=
  (urlsToCapture item).foldl
    (fun itemState u =>
      if requestFails u then
        if item.status = Status.fresh ∨ item.redirection.isSome then Status.failed
        else itemState
      else itemState)
    Status.captured

end Archiver

/-! ## Postprocessor (internal/pkg/postprocessor/postprocess.go and
internal/pkg/postprocessor/postprocessor.go) -/

namespace Postprocessor

/-- The parts of an HTTP response read by the postprocessor: the status code
and the `Location` header value. -/
structure Resp where
  statusCode : Nat
  location : String
  deriving DecidableEq, Repr

/-- The fields of `models.URL` read or written by the postprocessor.
`hasBody` records whether `GetBody()` is non-nil. -/
structure PURL where
  raw : String
  response : Option Resp
  redirects : Nat
  hops : Nat
  hasBody : Bool
  deriving DecidableEq, Repr

/-- The fields of `models.Item` read or written by the postprocessor.
`isChild`, `isSeed` and `isRedir` are the `IsChild`/`IsSeed`/`IsRedirection`
predicates of the item; children added by `AddChild` are recorded by their
URL record. -/
structure PItem where
  url : PURL
  status : Status
  isChild : Bool
  isSeed : Bool
  isRedir : Bool
  childs : List PURL
  deriving DecidableEq, Repr

/-- The configuration fields read by the postprocessor. -/
structure PPConfig where
  maxRedirect : Nat
  maxHops : Nat
  disableAssetsCapture : Bool
  domainsCrawl : Bool
  deriving DecidableEq, Repr

/-- Modelled from the spec: `isStatusCodeRedirect` (not under src/, only its
callers are) holds exactly for response statuses in the set 301, 302, 303,
307, 308. -/
def isStatusCodeRedirect (statusCode : Nat) : Bool :=
  statusCode == 301 || statusCode == 302 || statusCode == 303 ||
    statusCode == 307 || statusCode == 308

/-- The URL record built from a redirect response in both postprocessor
revisions: raw value from the `Location` header, redirect count incremented,
hop count inherited. -/
def redirectURL (u : PURL) (resp : Resp) : PURL :=
  { raw := resp.location, response := none
  , redirects := u.redirects + 1, hops := u.hops, hasBody := false }

/-- The updated item and observable outputs of one postprocessing call: the
warning and error log messages, and the outlinks returned. -/
structure ItemResult where
  item : PItem
  outlinks : List PURL
  logs : List String
  deriving DecidableEq, Repr

/-- The trailing status fixup shared by both postprocessor revisions: when
the status is neither `GotChildren` nor `GotRedirected`, set it to
`Completed`. -/
def finalStatusFixup (r : ItemResult) : ItemResult :=
  if r.item.status ≠ Status.gotChildren ∧ r.item.status ≠ Status.gotRedirected then
    { r with item := { r.item with status := Status.completed } }
  else r

/-- Embedding of `postprocessItem` (postprocessor/postprocess.go).
`assetsRes` and `outlinksRes` abstract the calls to `extractAssets` and
`extractOutlinks` (the extractor implementations are not under src/); an
`Except.error` models a non-nil error, on which the source logs and keeps
going with no assets, respectively logs and returns early with no outlinks
(skipping the final status fixup).  Items reaching the redirect check have a
non-nil response (the source dereferences it unconditionally), so the
`none` response case returns the item unchanged only to keep the definition
total. -/
def postprocessItem (cfg : PPConfig) (assetsRes outlinksRes : Except String (List PURL))
    (item : PItem) : ItemResult :=
  if item.status ≠ Status.archived then
    { item := item, outlinks := [], logs := [] }
  else
    match item.url.response with
    | none => { item := item, outlinks := [], logs := [] }
    | some resp =>
      if isStatusCodeRedirect resp.statusCode then
        if item.url.redirects ≥ cfg.maxRedirect then
          { item := { item with status := Status.completed }, outlinks := []
          , logs := ["max redirects reached"] }
        else
          { item := { item with
                        status := Status.gotRedirected
                        childs := item.childs ++ [redirectURL item.url resp] }
          , outlinks := [], logs := [] }
      else if item.isChild ∧ item.url.hops > 1 then
        { item := { item with status := Status.completed }, outlinks := [], logs := [] }
      else if cfg.disableAssetsCapture ∧ ¬cfg.domainsCrawl then
        { item := { item with status := Status.completed }, outlinks := [], logs := [] }
      else
        let afterAssets : ItemResult :=
          if resp.statusCode = 200 ∧ ¬cfg.disableAssetsCapture ∧ item.url.hasBody then
            match assetsRes with
            | Except.error e => { item := item, outlinks := [], logs := ["unable to extract assets: " ++ e] }
            | Except.ok assets =>
              { item := assets.foldl
                  (fun it a => { it with status := Status.gotChildren, childs := it.childs ++ [a] })
                  item
              , outlinks := [], logs := [] }
          else { item := item, outlinks := [], logs := [] }
        if resp.statusCode = 200 ∧
            (cfg.domainsCrawl ∨ ((item.isSeed ∨ item.isRedir) ∧ item.url.hops < cfg.maxHops)) ∧
            item.url.hasBody then
          match outlinksRes with
          | Except.error e =>
            { afterAssets with logs := afterAssets.logs ++ ["unable to extract outlinks: " ++ e] }
          | Except.ok links =>
            finalStatusFixup { afterAssets with outlinks := links }
        else
          finalStatusFixup afterAssets

/-- The per-node outcome of the loop body of `postprocess`
(postprocessor/postprocessor.go): the updated node, the log messages, and
whether the body executed a `return` statement, which aborts the whole loop
and leaves the remaining nodes untouched. -/
structure NodeStep where
  node : PItem
  logs : List String
  abort : Bool
  deriving DecidableEq, Repr

/-- Embedding of one iteration of the node loop of `postprocess`
(postprocessor/postprocessor.go).  `docOk` abstracts whether
`goquery.NewDocumentFromReader` succeeds on the node's body; `assetsRes`
abstracts `extractAssets` (not under src/); `scrapeBaseTag` (not under src/)
only feeds the abstracted extractor, so it has no further effect in the
model.  Note that in this revision the max-redirect branch logs and returns
without changing the node's status. -/
def postprocessNode (cfg : PPConfig) (docOk : Bool) (assetsRes : Except String (List PURL))
    (node : PItem) : NodeStep :=
  if node.status ≠ Status.archived then
    { node := node, logs := [], abort := true }
  else
    match node.url.response with
    | none => { node := node, logs := [], abort := true }
    | some resp =>
      if isStatusCodeRedirect resp.statusCode then
        if node.url.redirects ≥ cfg.maxRedirect then
          { node := node, logs := ["max redirects reached"], abort := true }
        else
          { node := { node with
                        status := Status.gotRedirected
                        childs := node.childs ++ [redirectURL node.url resp] }
          , logs := [], abort := true }
      else if (node.isChild ∧ node.url.hops > 1) ∨
          (cfg.disableAssetsCapture ∧ ¬cfg.domainsCrawl ∧ cfg.maxHops ≤ node.url.hops) then
        { node := node, logs := [], abort := true }
      else
        let afterAssets : PItem × List String :=
          if !docOk then (node, ["unable to create goquery document"])
          else
            match assetsRes with
            | Except.error e => (node, ["unable to extract assets: " ++ e])
            | Except.ok assets =>
              (assets.foldl
                (fun it a => { it with status := Status.gotChildren, childs := it.childs ++ [a] })
                node, [])
        if !docOk then
          { node := afterAssets.1, logs := afterAssets.2, abort := true }
        else
          let fixed :=
            if afterAssets.1.status ≠ Status.gotChildren ∧
                afterAssets.1.status ≠ Status.gotRedirected then
              { afterAssets.1 with status := Status.completed }
            else afterAssets.1
          { node := fixed, logs := afterAssets.2, abort := false }

/-- The node loop of `postprocess` (postprocessor/postprocessor.go) over the
items returned by `GetNodesAtLevel`: a `return` in the body aborts the loop,
leaving the remaining nodes untouched. -/
def postprocessNodes (cfg : PPConfig) (docOk : PItem → Bool)
    (assets : PItem → Except String (List PURL)) : List PItem → List PItem × List String
  | [] => ([], [])
  | n :: rest =>
    let s := postprocessNode cfg (docOk n) (assets n) n
    if s.abort then (s.node :: rest, s.logs)
    else
      let r := postprocessNodes cfg docOk assets rest
      (s.node :: r.1, s.logs ++ r.2)

/-- Embedding of `postprocess` (postprocessor/postprocessor.go): when asset
capture is disabled the function returns at once; otherwise it runs the node
loop over the nodes at the item's maximum depth (given here as `nodes`). -/
def postprocessGo (cfg : PPConfig) (docOk : PItem → Bool)
    (assets : PItem → Except String (List PURL)) (nodes : List PItem) :
    List PItem × List String :=
  if cfg.disableAssetsCapture then (nodes, [])
  else postprocessNodes cfg docOk assets nodes

end Postprocessor

/-! ## Queue item codec (src/unnamed/part_000: encodeItem, decodeProtoItem) -/

namespace Codec

/-- Modelled from the spec: the item type tag, "a source tag from
Insert, Queue, HQ, Feedback" — the `item.Type` enumeration and its
`String`/`TypeFromString` conversions are not under src/. -/
inductive ItemType where
  | insert
  | queue
  | hq
  | feedback
  deriving DecidableEq, Repr

/-- Modelled from the spec: `item.Type.String()`. -/
def ItemType.string : ItemType → String
  | ItemType.insert => "Insert"
  | ItemType.queue => "Queue"
  | ItemType.hq => "HQ"
  | ItemType.feedback => "Feedback"

/-- Modelled from the spec: `item.TypeFromString`, the inverse of
`ItemType.string`; an unrecognized tag is an error. -/
def typeFromString (s : String) : Except String ItemType :=
  if s = "Insert" then Except.ok ItemType.insert
  else if s = "Queue" then Except.ok ItemType.queue
  else if s = "HQ" then Except.ok ItemType.hq
  else if s = "Feedback" then Except.ok ItemType.feedback
  else Except.error "failed to parse item type"

/-- The serializable components of a `net/url.URL` value, abstracted to the
parsed components the spec names (scheme, host, path) plus the query. -/
structure GoURL where
  scheme : String
  host : String
  path : String
  rawQuery : String
  deriving DecidableEq, Repr

/-- One token of the wire encoding.  The external serialization libraries
(`encoding/json` for the URL fields, `google.golang.org/protobuf` for the
item record) are modelled as a token stream over this alphabet, which keeps
their documented round-trip contract while staying executable. -/
inductive Wire where
  | wstr (s : String)
  | wnat (n : Nat)
  | wbool (b : Bool)
  | wbytes (bs : List Wire)

/-- Modelled from the spec: `json.Marshal` of a `url.URL` value, as the
token stream of its components. -/
def jsonMarshalURL (u : GoURL) : List Wire :=
  [Wire.wstr u.scheme, Wire.wstr u.host, Wire.wstr u.path, Wire.wstr u.rawQuery]

/-- Modelled from the spec: `json.Unmarshal` into a `url.URL` value; a
stream that is not the marshalling of a URL is an error. -/
def jsonUnmarshalURL : List Wire → Except String GoURL
  | [Wire.wstr scheme, Wire.wstr host, Wire.wstr path, Wire.wstr rawQuery] =>
    Except.ok ⟨scheme, host, path, rawQuery⟩
  | _ => Except.error "failed to unmarshal URL"

/-- The `ProtoItem` message of the queue's protobuf schema, with its
`Url`/`ParentUrl` fields holding the JSON bytes of the two URLs. -/
structure ProtoItem where
  url : List Wire
  parentUrl : List Wire
  id : String
  hop : Nat
  type : String
  bypassSeencheck : Bool
  hash : String
  redirect : Nat
  locallyCrawled : Nat

/-- Modelled from the spec: `proto.Marshal` of a `ProtoItem`, as the token
stream of its fields in schema order. -/
def protoMarshal (p : ProtoItem) : List Wire :=
  [Wire.wbytes p.url, Wire.wbytes p.parentUrl, Wire.wstr p.id, Wire.wnat p.hop,
   Wire.wstr p.type, Wire.wbool p.bypassSeencheck, Wire.wstr p.hash,
   Wire.wnat p.redirect, Wire.wnat p.locallyCrawled]

/-- Modelled from the spec: `proto.Unmarshal` into a `ProtoItem`. -/
def protoUnmarshal : List Wire → Except String ProtoItem
  | [Wire.wbytes url, Wire.wbytes parentUrl, Wire.wstr id, Wire.wnat hop,
     Wire.wstr type, Wire.wbool bypassSeencheck, Wire.wstr hash,
     Wire.wnat redirect, Wire.wnat locallyCrawled] =>
    Except.ok ⟨url, parentUrl, id, hop, type, bypassSeencheck, hash, redirect, locallyCrawled⟩
  | _ => Except.error "failed to unmarshal item"

/-- The serializable fields of `item.Item` handled by the codec: URL, parent
URL, ID, hop, type tag, bypass-seencheck flag, hash, redirect count and
locally-crawled count. -/
structure QItem where
  url : GoURL
  parentURL : GoURL
  id : String
  hop : Nat
  type : ItemType
  bypassSeencheck : Bool
  hash : String
  redirect : Nat
  locallyCrawled : Nat
  deriving DecidableEq, Repr

/-- Embedding of `encodeItem` (src/unnamed/part_000): JSON-marshal the URL
and the parent URL, build the `ProtoItem` with the item's fields and the
string form of its type tag, and proto-marshal the result.  The source
propagates `json.Marshal` errors, which cannot occur for `url.URL` values,
so the embedding is total. -/
def encodeItem (it : QItem) : List Wire :=
  protoMarshal
    { url := jsonMarshalURL it.url
    , parentUrl := jsonMarshalURL it.parentURL
    , id := it.id
    , hop := it.hop
    , type := it.type.string
    , bypassSeencheck := it.bypassSeencheck
    , hash := it.hash
    , redirect := it.redirect
    , locallyCrawled := it.locallyCrawled }

/-- Embedding of `decodeProtoItem` (src/unnamed/part_000): proto-unmarshal,
JSON-unmarshal the URL and the parent URL, copy the scalar fields, and parse
the type tag with `TypeFromString`, each failure propagating as an error. -/
def decodeProtoItem (itemBytes : List Wire) : Except String QItem := do
  let protoItem ← protoUnmarshal itemBytes
  let url ← jsonUnmarshalURL protoItem.url
  let parentURL ← jsonUnmarshalURL protoItem.parentUrl
  let type ← typeFromString protoItem.type
  Except.ok
    { url := url
    , parentURL := parentURL
    , id := protoItem.id
    , hop := protoItem.hop
    , type := type
    , bypassSeencheck := protoItem.bypassSeencheck
    , hash := protoItem.hash
    , redirect := protoItem.redirect
    , locallyCrawled := protoItem.locallyCrawled }

end Codec

end Zeno

/-! ## Helper lemmas -/

namespace Zeno

/-- The capture fold of `archive` ends in `failed` exactly when the fixed
fail-condition holds and some URL's request fails; otherwise it returns its
initial state. -/
theorem Archiver.foldl_capture (fails : Archiver.AURL → Bool) (c : Prop) [Decidable c]
    (l : List Archiver.AURL) (st : Status) :
    l.foldl (fun s u => if fails u then (if c then Status.failed else s) else s) st =
      if c ∧ l.any fails = true then Status.failed else st := by
  induction l generalizing st with
  | nil => simp
  | cons a t ih =>
    simp only [List.foldl_cons, List.any_cons, Bool.or_eq_true]
    by_cases hf : fails a = true
    · rw [if_pos hf]
      by_cases hc : c
      · rw [if_pos hc, ih]
        simp [hc, hf]
      · rw [if_neg hc, ih]
        simp [hc]
    · rw [if_neg hf, ih]
      simp [hf]

/-- `archive` in closed form: it returns `failed` exactly when some issued
request fails and the item is `fresh` or carries a redirection, `captured`
otherwise. -/
theorem Archiver.archive_eq_ite (fails : Archiver.AURL → Bool) (item : Archiver.AItem) :
    Archiver.archive fails item =
      if (item.status = Status.fresh ∨ item.redirection.isSome = true) ∧
          (Archiver.urlsToCapture item).any fails = true then
        Status.failed
      else Status.captured :=
  Archiver.foldl_capture fails _ (Archiver.urlsToCapture item) Status.captured

/-- The preprocessor's child loop is the order-preserving filter-map that
keeps exactly the children whose validation succeeds, with their values
replaced by the validated form. -/
theorem Preprocessor.preprocessChilds_eq_filterMap (validate : String → Option String)
    (l : List Preprocessor.ChildURL) :
    Preprocessor.preprocessChilds validate l =
      l.filterMap (fun c => (validate c.value).map (fun v => { c with value := v })) := by
  induction l with
  | nil => rfl
  | cons c t ih =>
    cases h : validate c.value <;>
      simp [Preprocessor.preprocessChilds, h, ih]

/-- Filtering out a key from an association list makes lookups of that key
fail. -/
theorem Preprocessor.lookup_markAsFinished (table : List (String × Preprocessor.PreItem))
    (id : String) :
    (Preprocessor.markAsFinished table id).lookup id = none := by
  induction table with
  | nil => rfl
  | cons e t ih =>
    rw [Preprocessor.markAsFinished, List.filter_cons]
    by_cases h : e.1 = id
    · simp only [h, ne_eq, not_true_eq_false, decide_False, Bool.false_eq_true, if_false]
      exact ih
    · simp only [ne_eq, h, not_false_eq_true, decide_True, if_true]
      have hb : (id == e.1) = false := by
        simp only [beq_eq_false_iff_ne, ne_eq]
        exact fun hh => h hh.symm
      simp only [List.lookup, hb]
      exact ih

end Zeno

/-! ## Claim theorems -/

/-- C1: the index snapshot `performDump` performs the spec's sequence —
write the new index to a temp file, fsync, unlink the prior `.old`, rename
the index file to `.old`, rename the temp file into place, truncate the WAL
to zero length — and on success the WAL is empty; but the snapshot does NOT
succeed when the `.old` file does not yet exist (a first-ever snapshot):
`os.Remove` of the missing `.old` file returns an error which `performDump`
propagates, leaving the WAL untruncated. -/
theorem Zeno.Index.performDump_snapshot_spec :
    (∀ (memIndex : Nat) (fs : Zeno.Index.SnapshotFS),
      fs.oldExists = true → fs.indexExists = true →
      Zeno.Index.performDump memIndex fs =
        Except.ok ⟨true, memIndex, true, fs.indexContents, 0⟩) ∧
    (∀ (memIndex : Nat) (fs : Zeno.Index.SnapshotFS),
      fs.oldExists = false →
      Zeno.Index.performDump memIndex fs =
        Except.error "failed to remove old index file") := by
  constructor
  · intro memIndex fs hOld hIdx
    simp [Zeno.Index.performDump, hOld, hIdx]
  · intro memIndex fs hOld
    simp [Zeno.Index.performDump, hOld]

/-- Witness for C1's theorem: on a state with both files present the dump
succeeds with an empty WAL, and on a state without the `.old` file it
fails. -/
theorem Zeno.Index.performDump_snapshot_spec_witness :
    Zeno.Index.performDump 5 ⟨true, 1, true, 0, 7⟩ = Except.ok ⟨true, 5, true, 1, 0⟩ ∧
    Zeno.Index.performDump 5 ⟨true, 1, false, 0, 7⟩ =
      Except.error "failed to remove old index file" :=
  ⟨Zeno.Index.performDump_snapshot_spec.1 5 ⟨true, 1, true, 0, 7⟩ rfl rfl,
   Zeno.Index.performDump_snapshot_spec.2 5 ⟨true, 1, false, 0, 7⟩ rfl⟩

/-- C2: `IndexManager.Add` appends the WAL entry before mutating the
in-memory host index: on a failed WAL append it returns an error with the
state (WAL, host index, hence host lists and host order, and counters)
unchanged; on a successful append the WAL is extended by exactly the
`Add(host, id, position, size)` entry and the index is updated by
`Index.add`; and whenever the host index was mutated at all, the WAL
already holds the entry. -/
theorem Zeno.Index.managerAdd_wal_before_mutation :
    ∀ (walOk : Bool) (s : Zeno.Index.ManagerState) (host id : String) (position size : Nat),
      (walOk = false →
        Zeno.Index.managerAdd walOk s host id position size =
          (s, some "failed to write to WAL")) ∧
      (walOk = true →
        Zeno.Index.managerAdd walOk s host id position size =
          ({ wal := s.wal ++ [⟨Zeno.Index.Operation.opAdd, host, id, position, size⟩]
           , hostIndex := s.hostIndex.add host id position size
           , opsSinceDump := s.opsSinceDump + 1
           , totalOps := s.totalOps + 1 }, none)) ∧
      ((Zeno.Index.managerAdd walOk s host id position size).1.hostIndex ≠ s.hostIndex →
        (Zeno.Index.managerAdd walOk s host id position size).1.wal =
          s.wal ++ [⟨Zeno.Index.Operation.opAdd, host, id, position, size⟩]) := by
  intro walOk s host id position size
  refine ⟨fun h => by simp [Zeno.Index.managerAdd, h], fun h => by simp [Zeno.Index.managerAdd, h], ?_⟩
  cases walOk with
  | false => intro h; exact absurd rfl h
  | true => intro _; simp [Zeno.Index.managerAdd]

/-- Witness for C2's theorem: a failed WAL append on a concrete state leaves
it unchanged with an error, and a successful one extends the WAL and the
index. -/
theorem Zeno.Index.managerAdd_wal_before_mutation_witness :
    Zeno.Index.managerAdd false ⟨[], ⟨[], []⟩, 0, 0⟩ "h" "b1" 0 10 =
      (⟨[], ⟨[], []⟩, 0, 0⟩, some "failed to write to WAL") ∧
    Zeno.Index.managerAdd true ⟨[], ⟨[], []⟩, 0, 0⟩ "h" "b1" 0 10 =
      (⟨[⟨Zeno.Index.Operation.opAdd, "h", "b1", 0, 10⟩],
        ⟨[("h", [⟨"b1", 0, 10⟩])], ["h"]⟩, 1, 1⟩, none) :=
  ⟨(Zeno.Index.managerAdd_wal_before_mutation false ⟨[], ⟨[], []⟩, 0, 0⟩ "h" "b1" 0 10).1 rfl,
   by
    have h := (Zeno.Index.managerAdd_wal_before_mutation true ⟨[], ⟨[], []⟩, 0, 0⟩ "h" "b1" 0 10).2.1 rfl
    rw [h]; rfl⟩

/-- C3: for every item with its serializable fields set (URL, parent URL,
ID, hop, type tag, bypass-seencheck flag, hash, redirect count,
locally-crawled count), `decodeProtoItem (encodeItem item)` succeeds and
returns an item equal to the original on exactly those fields. -/
theorem Zeno.Codec.decodeProtoItem_encodeItem (it : Zeno.Codec.QItem) :
    Zeno.Codec.decodeProtoItem (Zeno.Codec.encodeItem it) = Except.ok it := by
  cases it with
  | mk url parentURL id hop type bypassSeencheck hash redirect locallyCrawled =>
    cases type <;> rfl

/-- C4: for every archived item whose response status is one of 301, 302,
303, 307, 308 and whose URL's redirect count is strictly below
`MaxRedirect`, the postprocessor — in both revisions, `postprocessItem` and
the node loop of `postprocess` — attaches exactly one child whose raw URL is
the response's `Location` header value, whose redirect count is the parent
URL's plus one and whose hop count equals the parent URL's, and sets the
item's status to `GotRedirected`. -/
theorem Zeno.Postprocessor.postprocess_redirect_child :
    ∀ (cfg : Zeno.Postprocessor.PPConfig)
      (aRes oRes : Except String (List Zeno.Postprocessor.PURL))
      (item : Zeno.Postprocessor.PItem) (resp : Zeno.Postprocessor.Resp),
      item.status = Zeno.Status.archived →
      item.url.response = some resp →
      Zeno.Postprocessor.isStatusCodeRedirect resp.statusCode = true →
      item.url.redirects < cfg.maxRedirect →
      ((Zeno.Postprocessor.redirectURL item.url resp).raw = resp.location ∧
        (Zeno.Postprocessor.redirectURL item.url resp).redirects = item.url.redirects + 1 ∧
        (Zeno.Postprocessor.redirectURL item.url resp).hops = item.url.hops) ∧
      Zeno.Postprocessor.postprocessItem cfg aRes oRes item =
        { item := { item with
                      status := Zeno.Status.gotRedirected
                      childs := item.childs ++ [Zeno.Postprocessor.redirectURL item.url resp] }
        , outlinks := [], logs := [] } ∧
      (∀ (docOk : Bool) (assetsRes : Except String (List Zeno.Postprocessor.PURL)),
        Zeno.Postprocessor.postprocessNode cfg docOk assetsRes item =
          { node := { item with
                        status := Zeno.Status.gotRedirected
                        childs := item.childs ++ [Zeno.Postprocessor.redirectURL item.url resp] }
          , logs := [], abort := true }) := by
  intro cfg aRes oRes item resp h1 h2 h3 h4
  have hlt : ¬(item.url.redirects ≥ cfg.maxRedirect) := Nat.not_le.mpr h4
  refine ⟨⟨rfl, rfl, rfl⟩, ?_, fun docOk assetsRes => ?_⟩
  · simp [Zeno.Postprocessor.postprocessItem, h1, h2, h3, hlt]
  · simp [Zeno.Postprocessor.postprocessNode, h1, h2, h3, hlt]

/-- Witness for C4's theorem: an archived seed with a 302 response and
redirect count 0 below `MaxRedirect = 3` gains exactly the Location child
and the `GotRedirected` status under both revisions. -/
theorem Zeno.Postprocessor.postprocess_redirect_child_witness :
    (Zeno.Postprocessor.postprocessItem ⟨3, 2, false, false⟩ (Except.ok []) (Except.ok [])
        ⟨⟨"http://x/", some ⟨302, "http://y/"⟩, 0, 1, false⟩, Zeno.Status.archived,
          false, true, false, []⟩).item =
      ⟨⟨"http://x/", some ⟨302, "http://y/"⟩, 0, 1, false⟩, Zeno.Status.gotRedirected,
        false, true, false, [⟨"http://y/", none, 1, 1, false⟩]⟩ ∧
    (Zeno.Postprocessor.postprocessNode ⟨3, 2, false, false⟩ true (Except.ok [])
        ⟨⟨"http://x/", some ⟨302, "http://y/"⟩, 0, 1, false⟩, Zeno.Status.archived,
          false, true, false, []⟩).node =
      ⟨⟨"http://x/", some ⟨302, "http://y/"⟩, 0, 1, false⟩, Zeno.Status.gotRedirected,
        false, true, false, [⟨"http://y/", none, 1, 1, false⟩]⟩ := by
  have h := Zeno.Postprocessor.postprocess_redirect_child ⟨3, 2, false, false⟩
    (Except.ok []) (Except.ok [])
    ⟨⟨"http://x/", some ⟨302, "http://y/"⟩, 0, 1, false⟩, Zeno.Status.archived,
      false, true, false, []⟩ ⟨302, "http://y/"⟩ rfl rfl (by decide) (by decide)
  constructor
  · rw [h.2.1]
    decide
  · rw [h.2.2 true (Except.ok [])]
    decide

/-- C5 counterexample: running the stage's `postprocess` loop on an archived
node whose 302 response has exhausted `MaxRedirect = 3` logs
`max redirects reached` and attaches no redirection child, but leaves the
node's status `Archived`: it does not set it to `Completed`, refuting the
claim as stated. -/
theorem Zeno.Postprocessor.postprocess_maxRedirect_counterexample :
    (Zeno.Postprocessor.postprocessGo ⟨3, 2, false, false⟩ (fun _ => true)
        (fun _ => Except.ok [])
        [⟨⟨"http://x/", some ⟨302, "http://y/"⟩, 3, 1, false⟩, Zeno.Status.archived,
          false, true, false, []⟩]).2 = ["max redirects reached"] ∧
    (Zeno.Postprocessor.postprocessGo ⟨3, 2, false, false⟩ (fun _ => true)
        (fun _ => Except.ok [])
        [⟨⟨"http://x/", some ⟨302, "http://y/"⟩, 3, 1, false⟩, Zeno.Status.archived,
          false, true, false, []⟩]).1.map (fun n => (n.status, n.childs.length)) =
      [(Zeno.Status.archived, 0)] ∧
    Zeno.Status.archived ≠ Zeno.Status.completed := by
  refine ⟨by rfl, by rfl, by decide⟩

/-- C5 as amended: on an archived item carrying a redirect-status response
whose redirect count has reached `MaxRedirect`, neither postprocessor
revision attaches a child and both log `max redirects reached`;
`postprocessItem` sets the status to `Completed`, while the `postprocess`
node loop called by the stage returns with the item's status unchanged. -/
theorem Zeno.Postprocessor.postprocess_maxRedirect_behavior :
    ∀ (cfg : Zeno.Postprocessor.PPConfig)
      (aRes oRes : Except String (List Zeno.Postprocessor.PURL))
      (item : Zeno.Postprocessor.PItem) (resp : Zeno.Postprocessor.Resp),
      item.status = Zeno.Status.archived →
      item.url.response = some resp →
      Zeno.Postprocessor.isStatusCodeRedirect resp.statusCode = true →
      cfg.maxRedirect ≤ item.url.redirects →
      Zeno.Postprocessor.postprocessItem cfg aRes oRes item =
        { item := { item with status := Zeno.Status.completed }
        , outlinks := [], logs := ["max redirects reached"] } ∧
      (∀ (docOk : Bool) (assetsRes : Except String (List Zeno.Postprocessor.PURL)),
        Zeno.Postprocessor.postprocessNode cfg docOk assetsRes item =
          { node := item, logs := ["max redirects reached"], abort := true }) := by
  intro cfg aRes oRes item resp h1 h2 h3 h4
  refine ⟨?_, fun docOk assetsRes => ?_⟩
  · simp [Zeno.Postprocessor.postprocessItem, h1, h2, h3, h4]
  · simp [Zeno.Postprocessor.postprocessNode, h1, h2, h3, h4]

/-- Witness for C5's amended theorem at `MaxRedirect = 3` and redirect
count 3. -/
theorem Zeno.Postprocessor.postprocess_maxRedirect_behavior_witness :
    Zeno.Postprocessor.postprocessItem ⟨3, 2, false, false⟩ (Except.ok []) (Except.ok [])
        ⟨⟨"http://x/", some ⟨302, "http://y/"⟩, 3, 1, false⟩, Zeno.Status.archived,
          false, true, false, []⟩ =
      { item := ⟨⟨"http://x/", some ⟨302, "http://y/"⟩, 3, 1, false⟩, Zeno.Status.completed,
          false, true, false, []⟩
      , outlinks := [], logs := ["max redirects reached"] } ∧
    Zeno.Postprocessor.postprocessNode ⟨3, 2, false, false⟩ true (Except.ok [])
        ⟨⟨"http://x/", some ⟨302, "http://y/"⟩, 3, 1, false⟩, Zeno.Status.archived,
          false, true, false, []⟩ =
      { node := ⟨⟨"http://x/", some ⟨302, "http://y/"⟩, 3, 1, false⟩, Zeno.Status.archived,
          false, true, false, []⟩
      , logs := ["max redirects reached"], abort := true } := by
  have h := Zeno.Postprocessor.postprocess_maxRedirect_behavior ⟨3, 2, false, false⟩
    (Except.ok []) (Except.ok [])
    ⟨⟨"http://x/", some ⟨302, "http://y/"⟩, 3, 1, false⟩, Zeno.Status.archived,
      false, true, false, []⟩ ⟨302, "http://y/"⟩ rfl rfl (by decide) (by decide)
  exact ⟨h.1, h.2 true (Except.ok [])⟩

/-- C6: `archive` sets the item's status to `Captured` when every issued
request succeeds; the status becomes `Failed` exactly when some request
fails AND the item's status is `Fresh` or the item carries a redirection
(so `Failed` only in those cases); and for a child-asset capture (no
redirection, non-`Fresh` status) failed requests still leave the final
status `Captured`. -/
theorem Zeno.Archiver.archive_status_spec :
    ∀ (requestFails : Zeno.Archiver.AURL → Bool) (item : Zeno.Archiver.AItem),
      ((∀ u ∈ Zeno.Archiver.urlsToCapture item, requestFails u = false) →
        Zeno.Archiver.archive requestFails item = Zeno.Status.captured) ∧
      (Zeno.Archiver.archive requestFails item = Zeno.Status.failed ↔
        ((item.status = Zeno.Status.fresh ∨ item.redirection.isSome = true) ∧
          ∃ u ∈ Zeno.Archiver.urlsToCapture item, requestFails u = true)) ∧
      (item.redirection = none → item.status ≠ Zeno.Status.fresh →
        Zeno.Archiver.archive requestFails item = Zeno.Status.captured) := by
  intro fails item
  refine ⟨?_, ?_, ?_⟩
  · intro h
    rw [Zeno.Archiver.archive_eq_ite]
    have hany : (Zeno.Archiver.urlsToCapture item).any fails = false := by
      rw [List.any_eq_false]
      intro u hu
      simp [h u hu]
    simp [hany]
  · rw [Zeno.Archiver.archive_eq_ite]
    simp only [List.any_eq_true]
    by_cases hcond : (item.status = Zeno.Status.fresh ∨ item.redirection.isSome = true) ∧
        ∃ u ∈ Zeno.Archiver.urlsToCapture item, fails u = true
    · simp [hcond]
    · simp [hcond]
  · intro hred hst
    rw [Zeno.Archiver.archive_eq_ite, if_neg]
    rintro ⟨hc, -⟩
    rcases hc with h1 | h2
    · exact hst h1
    · rw [hred] at h2
      simp at h2

/-- Witness for C6's theorem: a fresh seed whose request fails ends
`Failed`, and a child-asset item whose requests all fail ends `Captured`. -/
theorem Zeno.Archiver.archive_status_spec_witness :
    Zeno.Archiver.archive (fun _ => true) ⟨⟨"http://x/"⟩, Zeno.Status.fresh, none, []⟩ =
      Zeno.Status.failed ∧
    Zeno.Archiver.archive (fun _ => true)
        ⟨⟨"http://x/"⟩, Zeno.Status.gotChildren, none, [⟨"http://a/"⟩]⟩ =
      Zeno.Status.captured := by
  constructor
  · exact (Zeno.Archiver.archive_status_spec (fun _ => true)
      ⟨⟨"http://x/"⟩, Zeno.Status.fresh, none, []⟩).2.1.mpr (by decide)
  · exact (Zeno.Archiver.archive_status_spec (fun _ => true)
      ⟨⟨"http://x/"⟩, Zeno.Status.gotChildren, none, [⟨"http://a/"⟩]⟩).2.2 rfl (by decide)

/-- C7: a `Fresh` item whose own URL fails validation is dropped by the
preprocessor — `preprocess` returns without sending it on the output
channel — and the finisher's `MarkAsFinished` (modelled from the spec)
prunes any entry under the item's identifier from the reactor state table,
so lookups of that identifier fail afterwards. -/
theorem Zeno.Preprocessor.preprocess_drop_invalid_fresh :
    ∀ (validate : String → Option Zeno.Preprocessor.SeedURL → Option String)
      (item : Zeno.Preprocessor.PreItem)
      (table : List (String × Zeno.Preprocessor.PreItem)) (id : String),
      item.status = Zeno.Status.fresh →
      validate item.url.value none = none →
      Zeno.Preprocessor.preprocess validate item = none ∧
      (Zeno.Preprocessor.markAsFinished table id).lookup id = none := by
  intro validate item table id h1 h2
  exact ⟨by simp [Zeno.Preprocessor.preprocess, h1, h2],
    Zeno.Preprocessor.lookup_markAsFinished table id⟩

/-- Witness for C7's theorem: a fresh item with an always-failing validator
is dropped, and pruning a concrete one-entry table removes its key. -/
theorem Zeno.Preprocessor.preprocess_drop_invalid_fresh_witness :
    Zeno.Preprocessor.preprocess (fun _ _ => none) ⟨⟨"bad"⟩, Zeno.Status.fresh, []⟩ = none ∧
    (Zeno.Preprocessor.markAsFinished [("a", ⟨⟨"u"⟩, Zeno.Status.fresh, []⟩)] "a").lookup "a" =
      none :=
  Zeno.Preprocessor.preprocess_drop_invalid_fresh (fun _ _ => none)
    ⟨⟨"bad"⟩, Zeno.Status.fresh, []⟩ [("a", ⟨⟨"u"⟩, Zeno.Status.fresh, []⟩)] "a" rfl rfl

/-- C8: for a non-`Fresh` item with a non-empty child list, `preprocess`
keeps exactly the children whose URL validates against the parent (each kept
child's value replaced by its validated form), removes the children that
fail validation while preserving the order of the kept ones — an
order-preserving filter-map — and still sends the item on its output
channel. -/
theorem Zeno.Preprocessor.preprocess_filters_children :
    ∀ (validate : String → Option Zeno.Preprocessor.SeedURL → Option String)
      (item : Zeno.Preprocessor.PreItem),
      item.status ≠ Zeno.Status.fresh →
      item.childs ≠ [] →
      Zeno.Preprocessor.preprocess validate item =
        some { item with
                 childs := item.childs.filterMap
                   (fun c => (validate c.value (some item.url)).map
                     (fun v => { c with value := v })) } := by
  intro validate item h1 h2
  simp [Zeno.Preprocessor.preprocess, h1, h2,
    Zeno.Preprocessor.preprocessChilds_eq_filterMap]

/-- Witness for C8's theorem: the failing middle child is removed, the other
two keep their order with validated values, and the item is forwarded. -/
theorem Zeno.Preprocessor.preprocess_filters_children_witness :
    Zeno.Preprocessor.preprocess (fun s _ => if s = "ok" then some "OK" else none)
        ⟨⟨"http://p/"⟩, Zeno.Status.gotChildren, [⟨"ok"⟩, ⟨"bad"⟩, ⟨"ok"⟩]⟩ =
      some ⟨⟨"http://p/"⟩, Zeno.Status.gotChildren, [⟨"OK"⟩, ⟨"OK"⟩]⟩ := by
  have h := Zeno.Preprocessor.preprocess_filters_children
    (fun s _ => if s = "ok" then some "OK" else none)
    ⟨⟨"http://p/"⟩, Zeno.Status.gotChildren, [⟨"ok"⟩, ⟨"bad"⟩, ⟨"ok"⟩]⟩ (by decide) (by decide)
  rw [h]
  rfl

/-- C9: with continuous pull disabled, an `HQConsumer` iteration sleeps
100ms without fetching exactly when the active-worker count is at least 90%
of the worker count — the code's integer threshold
`ActiveWorkers >= Workers - Workers/10` coincides with
`10*ActiveWorkers >= 9*Workers` — and otherwise fetches a batch of size
`HQBatchSize` when that is non-zero and `ceil(WorkersCount/2)` otherwise. -/
theorem Zeno.HQ.hqConsumer_backpressure :
    ∀ (activeWorkers workers cfgBatchSize : Nat),
      ((activeWorkers ≥ workers - workers / 10) ↔ 10 * activeWorkers ≥ 9 * workers) ∧
      (activeWorkers ≥ workers - workers / 10 →
        Zeno.HQ.hqConsumerIteration false activeWorkers workers cfgBatchSize =
          Zeno.HQ.ConsumerAction.sleep100) ∧
      (¬(activeWorkers ≥ workers - workers / 10) →
        Zeno.HQ.hqConsumerIteration false activeWorkers workers cfgBatchSize =
          Zeno.HQ.ConsumerAction.fetch
            (if cfgBatchSize ≠ 0 then cfgBatchSize else Zeno.HQ.ceilHalf workers)) := by
  intro a w b
  refine ⟨by omega, fun h => ?_, fun h => ?_⟩
  · simp [Zeno.HQ.hqConsumerIteration, h]
  · simp [Zeno.HQ.hqConsumerIteration, h]

/-- Witness for C9's theorem: with 10 workers, 9 active workers trigger the
100ms sleep and 8 active workers trigger a fetch of the configured size. -/
theorem Zeno.HQ.hqConsumer_backpressure_witness :
    Zeno.HQ.hqConsumerIteration false 9 10 0 = Zeno.HQ.ConsumerAction.sleep100 ∧
    Zeno.HQ.hqConsumerIteration false 8 10 7 = Zeno.HQ.ConsumerAction.fetch 7 := by
  constructor
  · exact (Zeno.HQ.hqConsumer_backpressure 9 10 0).2.1 (by decide)
  · have h := (Zeno.HQ.hqConsumer_backpressure 8 10 7).2.2 (by decide)
    rw [h]
    decide

/-- C10: when `CrawlMaxTimeLimit` is 0 and `CrawlTimeLimit` is non-zero,
`GenerateCrawlConfig` sets the crawl's `MaxCrawlTimeLimit` to
`CrawlTimeLimit + CrawlTimeLimit/10` with Go integer division; in every
other configuration `MaxCrawlTimeLimit` is `CrawlMaxTimeLimit` unchanged. -/
theorem Zeno.Config.generateCrawlTimeLimits_spec :
    ∀ cfg : Zeno.Config.TimeLimits,
      (cfg.crawlMaxTimeLimit = 0 → cfg.crawlTimeLimit ≠ 0 →
        Zeno.Config.generateCrawlTimeLimits cfg =
          (cfg.crawlTimeLimit, cfg.crawlTimeLimit + Int.tdiv cfg.crawlTimeLimit 10)) ∧
      (cfg.crawlMaxTimeLimit ≠ 0 ∨ cfg.crawlTimeLimit = 0 →
        Zeno.Config.generateCrawlTimeLimits cfg =
          (cfg.crawlTimeLimit, cfg.crawlMaxTimeLimit)) := by
  intro cfg
  constructor
  · intro h1 h2
    simp [Zeno.Config.generateCrawlTimeLimits, h1, h2]
  · intro h
    rcases h with h | h <;> simp [Zeno.Config.generateCrawlTimeLimits, h]

/-- Witness for C10's theorem: a soft limit of 100 with no hard limit yields
a hard limit of 110; an explicit hard limit of 50 is kept unchanged. -/
theorem Zeno.Config.generateCrawlTimeLimits_spec_witness :
    Zeno.Config.generateCrawlTimeLimits ⟨100, 0⟩ = (100, 110) ∧
    Zeno.Config.generateCrawlTimeLimits ⟨100, 50⟩ = (100, 50) := by
  constructor
  · have h := (Zeno.Config.generateCrawlTimeLimits_spec ⟨100, 0⟩).1 rfl (by decide)
    rw [h]
    decide
  · exact (Zeno.Config.generateCrawlTimeLimits_spec ⟨100, 50⟩).2 (Or.inl (by decide))

